import Mathlib

/-!
Verification of the SVG security scanning/sanitization core of grokify/brandkit
(`svg/security`: scan.go-style scanner, sanitize.go-style sanitizer, report.go-style
report generator).

The Go code drives everything through `regexp` patterns compiled with `(?i)` or
`(?is)`.  We shallowly embed the fragment of Go regular-expression semantics those
patterns use: case-insensitive literals, character classes, greedy/lazy star, plus,
optional, capture groups and the word boundary `\b`.  Go's `regexp` implements
leftmost-first (Perl-style) matching: the match reported at a position is the first
one a backtracking search finds.  We model this by enumerating, for a pattern and a
suffix of the input, the list of possible match lengths in backtracking priority
order; the head of that list is the match Go reports.  `FindAllString` and
`ReplaceAllString` then walk the input left to right, taking the first match at the
leftmost possible position and continuing after its end, exactly as Go does.

Every pattern of the catalog in the source is transcribed node by node below.
All machine strings involved are ASCII, so Go's byte-based lengths and Lean's
character-based lengths coincide.
-/

namespace Brandkit

/-- ASCII lower-casing, as Go's case-insensitive matching applies it to the
byte range `A`-`Z`. -/
def lowerAscii (c : Char) : Char :=
  if 'A' ≤ c ∧ c ≤ 'Z' then Char.ofNat (c.toNat + 32) else c

/-- Case-insensitive character equality (the effect of the `(?i)` flag). -/
def ciEq (a b : Char) : Bool := lowerAscii a == lowerAscii b

/-- Case-insensitive "starts with" test for a literal. -/
def ciStarts : List Char → List Char → Bool
  | [], _ => true
  | _ :: _, [] => false
  | a :: as, b :: bs => ciEq a b && ciStarts as bs

/-- Go's `\s`: exactly the characters tab, newline, form feed, carriage return,
space. -/
def spaceGo (c : Char) : Bool :=
  c == ' ' || c == '\t' || c == '\n' || c == Char.ofNat 12 || c == Char.ofNat 13

/-- Go's word characters (for `\b`): `[0-9A-Za-z_]`. -/
def wordGo (c : Char) : Bool :=
  ('a' ≤ lowerAscii c && lowerAscii c ≤ 'z') || ('0' ≤ c && c ≤ '9') || c == '_'

/-- The class `[a-z]` under `(?i)`: any ASCII letter. -/
def azCI (c : Char) : Bool := 'a' ≤ lowerAscii c && lowerAscii c ≤ 'z'

/-- The single-quote character (spelled via its code point). -/
def sqc : Char := Char.ofNat 39

/-- The metacharacter `.` when the `s` flag is absent: any character except newline. -/
def anyNotNl (c : Char) : Bool := !(c == '\n')

/-- The metacharacter `.` under the `s` flag: any character. -/
def anyCh (_ : Char) : Bool := true

/-- The class `[^>]`. -/
def notGt (c : Char) : Bool := !(c == '>')

/-- The class `["']`. -/
def quoteCh (c : Char) : Bool := c == '"' || c == sqc

/-- The class `[^"']`. -/
def notQuote (c : Char) : Bool := !(quoteCh c)

/-- The class `[^"]`. -/
def notDq (c : Char) : Bool := !(c == '"')

/-- The class `[^']`. -/
def notSq (c : Char) : Bool := !(c == sqc)

/-- The class `[^\s>"']`. -/
def notSpaceGtQuote (c : Char) : Bool :=
  !(spaceGo c || c == '>' || c == '"' || c == sqc)

/-- The class `[^)"']`. -/
def notParenQuote (c : Char) : Bool := !(c == ')' || c == '"' || c == sqc)

/-- The class `[)"']`. -/
def closeParenQuote (c : Char) : Bool := c == ')' || c == '"' || c == sqc

/-- Abstract syntax of the regular-expression fragment used by the catalog.
Stars/plus are restricted to character classes, which is all the Go patterns use.
`wordBAfter` models `\b` at a point whose preceding character is always a word
character (true at every `\b` in the catalog, each of which directly follows a
letter of a literal), so the boundary holds iff the next character is a non-word
character or the input ends. -/
inductive RE where
  | eps
  | lit (w : List Char)
  | cls (p : Char → Bool)
  | wordBAfter
  | cat (a b : RE)
  | alt (a b : RE)
  | starG (p : Char → Bool)
  | starL (p : Char → Bool)
  | plusG (p : Char → Bool)
  | opt (a : RE)
  | grp (n : Nat) (a : RE)

/-- Sequence a list of nodes. -/
def catL (l : List RE) : RE := l.foldr RE.cat RE.eps

/-- Case-insensitive literal from a string. -/
def litS (s : String) : RE := RE.lit s.data

/-- Lazy-star option lengths at a position, in backtracking priority order
(shortest first): 0, then 1 + the options in the tail while the class accepts. -/
def lazyOpts (p : Char → Bool) : List Char → List Nat
  | [] => [0]
  | c :: t => if p c then 0 :: (lazyOpts p t).map (· + 1) else [0]

/-- Greedy-star option lengths, longest first. -/
def greedyOpts (p : Char → Bool) : List Char → List Nat
  | [] => [0]
  | c :: t => if p c then (greedyOpts p t).map (· + 1) ++ [0] else [0]

/-- Capture-group assignments of a match: group number to captured text. -/
abbrev Caps : Type := List (Nat × List Char)

/-- All ways `re` can match a prefix of `s`, as (consumed length, captures),
in backtracking priority order.  The head is the match Go's leftmost-first
search reports at this position. -/
def mrun : RE → List Char → List (Nat × Caps)
  | .eps, _ => [(0, ([] : List (Nat × List Char)))]
  | .lit w, s => if ciStarts w s then [(w.length, [])] else []
  | .cls _, [] => []
  | .cls p, c :: _ => if p c then [(1, [])] else []
  | .wordBAfter, [] => [(0, [])]
  | .wordBAfter, c :: _ => if wordGo c then [] else [(0, [])]
  | .cat a b, s =>
      (mrun a s).flatMap fun x =>
        (mrun b (s.drop x.1)).map fun y => (x.1 + y.1, (x.2 ++ y.2 : Caps))
  | .alt a b, s => mrun a s ++ mrun b s
  | .starG p, s => (greedyOpts p s).map fun n => (n, [])
  | .starL p, s => (lazyOpts p s).map fun n => (n, [])
  | .plusG _, [] => []
  | .plusG p, c :: t =>
      if p c then (greedyOpts p t).map fun n => (n + 1, ([] : List (Nat × List Char))) else []
  | .opt a, s => mrun a s ++ [(0, [])]
  | .grp i a, s => (mrun a s).map fun x => (x.1, (x.2 ++ [(i, s.take x.1)] : Caps))

/-- The match Go reports at this position, if any. -/
def firstMatch (re : RE) (s : List Char) : Option (Nat × Caps) := (mrun re s).head?

/-- Model of `FindAllString(content, -1)`: all non-overlapping matches, leftmost first,
resuming after the end of each match.  The fuel argument is an upper bound on
the number of steps (one per position advanced or match consumed); callers pass
`length + 1`, which always suffices. -/
def findAllAux (re : RE) : Nat → List Char → List (List Char)
  | 0, _ => []
  | _ + 1, [] =>
      match firstMatch re [] with
      | some _ => [[]]
      | none => []
  | fuel + 1, c :: t =>
      match firstMatch re (c :: t) with
      | some (0, _) => [] :: findAllAux re fuel t
      | some (n + 1, _) =>
          ((c :: t).take (n + 1)) :: findAllAux re fuel ((c :: t).drop (n + 1))
      | none => findAllAux re fuel t

def findAll (re : RE) (s : List Char) : List (List Char) :=
  findAllAux re (s.length + 1) s

/-- A replacement template: literal pieces and `$n` group references. -/
inductive TItem where
  | str (w : List Char)
  | ref (n : Nat)

/-- A full template, e.g. `$1#"` is `[ref 1, str "#\""]`. -/
abbrev Tmpl : Type := List TItem

/-- Contents of group `i` in a match (empty when the group is absent,
as in Go). -/
def capLookup (g : Caps) (i : Nat) : List Char :=
  (((g : List (Nat × List Char)).find? fun x => x.1 == i).map Prod.snd).getD []

/-- Instantiate a template with a match's captures. -/
def instT (t : Tmpl) (g : Caps) : List Char :=
  (t : List TItem).flatMap fun item =>
    match item with
    | .str w => w
    | .ref i => capLookup g i

/-- Model of `ReplaceAllString`: rewrite every non-overlapping leftmost-first match using
the template, copying unmatched characters through. -/
def replaceAllAux (re : RE) (tm : Tmpl) : Nat → List Char → List Char
  | 0, s => s
  | _ + 1, [] =>
      match firstMatch re [] with
      | some (_, g) => instT tm g
      | none => []
  | fuel + 1, c :: t =>
      match firstMatch re (c :: t) with
      | some (0, g) => instT tm g ++ c :: replaceAllAux re tm fuel t
      | some (n + 1, g) => instT tm g ++ replaceAllAux re tm fuel ((c :: t).drop (n + 1))
      | none => c :: replaceAllAux re tm fuel t

def replaceAll (re : RE) (tm : Tmpl) (s : List Char) : List Char :=
  replaceAllAux re tm (s.length + 1) s

/-! Threat taxonomy (scan.go). -/

/-- ThreatType categorizes the type of security threat detected. -/
inductive ThreatType where
  | script
  | eventHandler
  | externalRef
  | animation
  | styleBlock
  | link
  | xmlEntity
deriving DecidableEq, Repr

/-- Severity returns the severity level for a threat type. -/
def ThreatType.severity : ThreatType → String
  | .script => "critical"
  | .eventHandler => "critical"
  | .externalRef => "high"
  | .xmlEntity => "high"
  | .animation => "medium"
  | .link => "medium"
  | .styleBlock => "low"

/-- Threat represents a detected security threat in an SVG file. -/
structure Threat where
  type : ThreatType
  description : String
  mtch : String
deriving DecidableEq, Repr

/-- Result contains the result of scanning an SVG file for security threats.
The Go `ThreatCounts map[ThreatType]int` is modelled as a total function with
default 0, matching Go map lookup semantics. -/
structure Result where
  filePath : String
  isSecure : Bool
  threats : List Threat
  threatCounts : ThreatType → Nat
  errors : List String

/-- IsSuccess returns true if the file is secure and has no errors. -/
def Result.isSuccess (r : Result) : Bool := r.isSecure && r.errors.isEmpty

/-- threatPattern defines a pattern to detect a specific security threat. -/
structure ThreatPattern where
  pattern : RE
  desc : String
  threatType : ThreatType
  matchLength : Nat

/-- The regex `(?is)<script\\b[^>]*>.*?</script>` of the script-element removal
rule (the scanner's variant differs only in the dot class, which excludes
newline there). -/
def scriptElemDotallRE : RE :=
  catL [litS "<script", .wordBAfter, .starG notGt, litS ">", .starL anyCh,
        litS "</script>"]

/-- The regex `(?i)\\s+on[a-z]+\\s*=\\s*"[^"]*"` shared by the double-quoted
event-handler detection and removal rules. -/
def eventHandlerDqRE : RE :=
  catL [.plusG spaceGo, litS "on", .plusG azCI, .starG spaceGo, litS "=",
        .starG spaceGo, litS "\"", .starG notDq, litS "\""]

/-- Script patterns detect script injection attacks. -/
def scriptPatterns : List ThreatPattern :=
  [ -- (?i)<script\b[^>]*>.*?</script>
    ⟨catL [litS "<script", .wordBAfter, .starG notGt, litS ">", .starL anyNotNl,
           litS "</script>"], "script element", .script, 100⟩,
    -- (?i)<script\b[^>]*/>
    ⟨catL [litS "<script", .wordBAfter, .starG notGt, litS "/>"],
      "self-closing script element", .script, 50⟩,
    -- (?i)javascript\s*:
    ⟨catL [litS "javascript", .starG spaceGo, litS ":"], "javascript: URI", .script, 30⟩,
    -- (?i)vbscript\s*:
    ⟨catL [litS "vbscript", .starG spaceGo, litS ":"], "vbscript: URI", .script, 30⟩,
    -- (?i)data\s*:\s*text/html
    ⟨catL [litS "data", .starG spaceGo, litS ":", .starG spaceGo, litS "text/html"],
      "data:text/html URI", .script, 50⟩ ]

/-- Event handler patterns detect inline event handlers. -/
def eventHandlerPatterns : List ThreatPattern :=
  [ -- (?i)\s+on[a-z]+\s*=\s*"[^"]*"
    ⟨eventHandlerDqRE, "event handler attribute", .eventHandler, 80⟩,
    -- (?i)\s+on[a-z]+\s*=\s*'[^']*'
    ⟨catL [.plusG spaceGo, litS "on", .plusG azCI, .starG spaceGo, litS "=",
           .starG spaceGo, .lit [sqc], .starG notSq, .lit [sqc]],
      "event handler attribute", .eventHandler, 80⟩,
    -- (?i)\s+on[a-z]+\s*=\s*[^\s>"']+
    ⟨catL [.plusG spaceGo, litS "on", .plusG azCI, .starG spaceGo, litS "=",
           .starG spaceGo, .plusG notSpaceGtQuote],
      "unquoted event handler attribute", .eventHandler, 60⟩ ]

/-- External reference patterns detect external resource loading. -/
def externalRefPatterns : List ThreatPattern :=
  [ -- (?i)href\s*=\s*["']https?://[^"']+["']
    ⟨catL [litS "href", .starG spaceGo, litS "=", .starG spaceGo, .cls quoteCh,
           litS "http", .opt (litS "s"), litS "://", .plusG notQuote, .cls quoteCh],
      "external href", .externalRef, 100⟩,
    -- (?i)xlink:href\s*=\s*["']https?://[^"']+["']
    ⟨catL [litS "xlink:href", .starG spaceGo, litS "=", .starG spaceGo, .cls quoteCh,
           litS "http", .opt (litS "s"), litS "://", .plusG notQuote, .cls quoteCh],
      "external xlink:href", .externalRef, 100⟩,
    -- (?i)<foreignObject\b
    ⟨catL [litS "<foreignObject", .wordBAfter], "foreignObject element", .externalRef, 50⟩,
    -- (?i)url\s*\(\s*["']?https?://[^)"']+
    ⟨catL [litS "url", .starG spaceGo, litS "(", .starG spaceGo, .opt (.cls quoteCh),
           litS "http", .opt (litS "s"), litS "://", .plusG notParenQuote],
      "external URL in style", .externalRef, 100⟩,
    -- (?i)<use[^>]+xlink:href\s*=\s*["']https?://
    ⟨catL [litS "<use", .plusG notGt, litS "xlink:href", .starG spaceGo, litS "=",
           .starG spaceGo, .cls quoteCh, litS "http", .opt (litS "s"), litS "://"],
      "external use reference", .externalRef, 100⟩,
    -- (?i)<use[^>]+href\s*=\s*["']https?://
    ⟨catL [litS "<use", .plusG notGt, litS "href", .starG spaceGo, litS "=",
           .starG spaceGo, .cls quoteCh, litS "http", .opt (litS "s"), litS "://"],
      "external use reference", .externalRef, 100⟩ ]

/-- Animation patterns detect SVG animation elements.  In
`<set\b[^>]*\b(attributeName|to)\s*=` the second `\b` sits before a word
character, so it requires the preceding character (the last one matched by
`[^>]*`, which must exist since the character before that span is `t`) to be a
non-word character; the options of `[^>]*` followed by that final character
preserve Go's greedy backtracking order. -/
def animationPatterns : List ThreatPattern :=
  [ -- (?i)<animate\b
    ⟨catL [litS "<animate", .wordBAfter], "animate element", .animation, 50⟩,
    -- (?i)<animateTransform\b
    ⟨catL [litS "<animateTransform", .wordBAfter], "animateTransform element", .animation, 50⟩,
    -- (?i)<animateMotion\b
    ⟨catL [litS "<animateMotion", .wordBAfter], "animateMotion element", .animation, 50⟩,
    -- (?i)<animateColor\b
    ⟨catL [litS "<animateColor", .wordBAfter], "animateColor element", .animation, 50⟩,
    -- (?i)<set\b[^>]*\b(attributeName|to)\s*=
    ⟨catL [litS "<set", .wordBAfter, .starG notGt,
           .cls (fun c => notGt c && !wordGo c),
           .alt (litS "attributeName") (litS "to"), .starG spaceGo, litS "="],
      "set element", .animation, 50⟩ ]

/-- Style block patterns detect style elements. -/
def styleBlockPatterns : List ThreatPattern :=
  [ -- (?i)<style\b
    ⟨catL [litS "<style", .wordBAfter], "style element", .styleBlock, 50⟩ ]

/-- Link patterns detect anchor elements.  The `\b` before `href` is encoded
the same way as in the `<set>` pattern above. -/
def linkPatterns : List ThreatPattern :=
  [ -- (?i)<a\b[^>]*\bhref\s*=
    ⟨catL [litS "<a", .wordBAfter, .starG notGt,
           .cls (fun c => notGt c && !wordGo c),
           litS "href", .starG spaceGo, litS "="],
      "anchor element with href", .link, 80⟩ ]

/-- XML entity patterns detect DOCTYPE and ENTITY declarations. -/
def xmlEntityPatterns : List ThreatPattern :=
  [ -- (?i)<!DOCTYPE\b
    ⟨catL [litS "<!DOCTYPE", .wordBAfter], "DOCTYPE declaration", .xmlEntity, 50⟩,
    -- (?i)<!ENTITY\b
    ⟨catL [litS "<!ENTITY", .wordBAfter], "ENTITY declaration", .xmlEntity, 50⟩ ]

/-- ScanLevel defines how strict the security scan should be. -/
inductive ScanLevel where
  | strict
  | standard
deriving DecidableEq, Repr

/-- patternsForLevel returns patterns based on scan level. -/
def patternsForLevel (level : ScanLevel) : List ThreatPattern :=
  scriptPatterns ++ eventHandlerPatterns ++ externalRefPatterns ++ xmlEntityPatterns ++
    (match level with
     | .strict => animationPatterns ++ styleBlockPatterns ++ linkPatterns
     | .standard => [])

/-- Truncation of a match for display: `match[:maxLen] + "..."` when the match
is longer than the cap (0 means the default cap of 50). -/
def truncateMatch (m : List Char) (maxLen : Nat) : String :=
  let cap := if maxLen == 0 then 50 else maxLen
  if m.length > cap then String.mk (m.take cap ++ "...".data) else String.mk m

/-- The all-zero threat-count map (a fresh/nil Go map). -/
def emptyCounts : ThreatType → Nat := fun _ => 0

/-- Increment one category's count (`result.ThreatCounts[t]++`). -/
def bump (f : ThreatType → Nat) (t : ThreatType) : ThreatType → Nat :=
  fun x => if x = t then f x + 1 else f x

/-- A freshly initialized Result, as built by SVGWithLevel / ScanContentWithLevel. -/
def freshResult (path : String) : Result :=
  ⟨path, true, [], emptyCounts, []⟩

/-- The inner loop of ScanContentWithLevel for one pattern: record a Threat per
match, bump the category count, and clear the secure flag. -/
def applyPattern (content : List Char) (r : Result) (p : ThreatPattern) : Result :=
  (findAll p.pattern content).foldl
    (fun r m =>
      { r with
        threats := r.threats ++ [⟨p.threatType, p.desc, truncateMatch m p.matchLength⟩],
        threatCounts := bump r.threatCounts p.threatType,
        isSecure := false })
    r

/-- ScanContentWithLevel scans SVG content for security threats with specified
level (the `nil` result argument is modelled by `none`). -/
def scanContentWithLevel (content : String) (result : Option Result) (level : ScanLevel) :
    Result :=
  let r0 := match result with
    | none => freshResult ""
    | some r => r
  (patternsForLevel level).foldl (applyPattern content.data) r0

/-- ScanContent scans SVG content using strict level. -/
def scanContent (content : String) (result : Option Result) : Result :=
  scanContentWithLevel content result .strict

/-- SVGWithLevel scans a single SVG file with specified scan level.  File I/O is
abstracted: `readResult` stands for the outcome of `os.ReadFile(filePath)`. -/
def svgWithLevel (filePath : String) (readResult : Except String String)
    (level : ScanLevel) : Except String Result :=
  match readResult with
  | .error e => .error ("failed to read file: " ++ e)
  | .ok content => .ok (scanContentWithLevel content (some (freshResult filePath)) level)

/-- SVG scans a single SVG file using strict level. -/
def svgFile (filePath : String) (readResult : Except String String) :
    Except String Result :=
  svgWithLevel filePath readResult .strict

/-- Directory scans all SVG files in a directory (non-recursive).  The
enumeration of `.svg` files together with each file's read outcome is the
input list.  A failed read yields a Result with `IsSecure: false` and the
wrapped error message; the remaining files are still scanned. -/
def directory (files : List (String × Except String String)) : List Result :=
  files.map fun f =>
    match svgFile f.1 f.2 with
    | .error e => { filePath := f.1, isSecure := false, threats := [],
                    threatCounts := emptyCounts, errors := [e] }
    | .ok r => r

/-- DirectoryRecursive scans all SVG files in a directory tree; the error
branch additionally initializes ThreatCounts, which is invisible in this model
(a nil Go map also reads as all-zero). -/
def directoryRecursive (files : List (String × Except String String)) : List Result :=
  files.map fun f =>
    match svgFile f.1 f.2 with
    | .error e => { filePath := f.1, isSecure := false, threats := [],
                    threatCounts := emptyCounts, errors := [e] }
    | .ok r => r

/-! Sanitizer (sanitize.go). -/

/-- SanitizeOptions specifies which threat types to remove during sanitization. -/
structure SanitizeOptions where
  removeScripts : Bool
  removeEventHandlers : Bool
  removeExternalRefs : Bool
  removeAll : Bool
deriving DecidableEq, Repr

/-- DefaultSanitizeOptions returns options that remove all threats. -/
def defaultSanitizeOptions : SanitizeOptions :=
  ⟨false, false, false, true⟩

/-- sanitizePattern defines a pattern and its replacement for sanitization. -/
structure SanitizePattern where
  pattern : RE
  replacement : Tmpl
  desc : String
  threatType : ThreatType

/-- Script removal patterns. -/
def scriptRemovalPatterns : List SanitizePattern :=
  [ -- (?is)<script\b[^>]*>.*?</script>  ->  ""
    ⟨scriptElemDotallRE, [], "script element", .script⟩,
    -- (?i)<script\b[^>]*/>  ->  ""
    ⟨catL [litS "<script", .wordBAfter, .starG notGt, litS "/>"], [],
      "self-closing script element", .script⟩,
    -- (?i)(href\s*=\s*["'])javascript:[^"']*["']  ->  $1#"
    ⟨catL [.grp 1 (catL [litS "href", .starG spaceGo, litS "=", .starG spaceGo,
                         .cls quoteCh]),
           litS "javascript:", .starG notQuote, .cls quoteCh],
      [.ref 1, .str "#\"".data], "javascript: URI in href", .script⟩,
    -- (?i)(href\s*=\s*["'])vbscript:[^"']*["']  ->  $1#"
    ⟨catL [.grp 1 (catL [litS "href", .starG spaceGo, litS "=", .starG spaceGo,
                         .cls quoteCh]),
           litS "vbscript:", .starG notQuote, .cls quoteCh],
      [.ref 1, .str "#\"".data], "vbscript: URI in href", .script⟩,
    -- (?i)(href\s*=\s*["'])data:\s*text/html[^"']*["']  ->  $1#"
    ⟨catL [.grp 1 (catL [litS "href", .starG spaceGo, litS "=", .starG spaceGo,
                         .cls quoteCh]),
           litS "data:", .starG spaceGo, litS "text/html", .starG notQuote, .cls quoteCh],
      [.ref 1, .str "#\"".data], "data:text/html URI", .script⟩ ]

/-- Event handler removal patterns. -/
def eventHandlerRemovalPatterns : List SanitizePattern :=
  [ -- (?i)\s+on[a-z]+\s*=\s*"[^"]*"  ->  ""
    ⟨eventHandlerDqRE, [], "event handler attribute", .eventHandler⟩,
    -- (?i)\s+on[a-z]+\s*=\s*'[^']*'  ->  ""
    ⟨catL [.plusG spaceGo, litS "on", .plusG azCI, .starG spaceGo, litS "=",
           .starG spaceGo, .lit [sqc], .starG notSq, .lit [sqc]], [],
      "event handler attribute", .eventHandler⟩,
    -- (?i)\s+on[a-z]+\s*=\s*[^\s>"']+  ->  ""
    ⟨catL [.plusG spaceGo, litS "on", .plusG azCI, .starG spaceGo, litS "=",
           .starG spaceGo, .plusG notSpaceGtQuote], [],
      "unquoted event handler attribute", .eventHandler⟩ ]

/-- XML entity removal patterns (note: no `\b`, and bounded by `>`). -/
def xmlEntityRemovalPatterns : List SanitizePattern :=
  [ -- (?i)<!DOCTYPE[^>]*>  ->  ""
    ⟨catL [litS "<!DOCTYPE", .starG notGt, litS ">"], [], "DOCTYPE declaration", .xmlEntity⟩,
    -- (?i)<!ENTITY[^>]*>  ->  ""
    ⟨catL [litS "<!ENTITY", .starG notGt, litS ">"], [], "ENTITY declaration", .xmlEntity⟩ ]

/-- External reference removal patterns. -/
def externalRefRemovalPatterns : List SanitizePattern :=
  [ -- (?i)(href\s*=\s*["'])https?://[^"']*["']  ->  $1#"
    ⟨catL [.grp 1 (catL [litS "href", .starG spaceGo, litS "=", .starG spaceGo,
                         .cls quoteCh]),
           litS "http", .opt (litS "s"), litS "://", .starG notQuote, .cls quoteCh],
      [.ref 1, .str "#\"".data], "external href", .externalRef⟩,
    -- (?i)(xlink:href\s*=\s*["'])https?://[^"']*["']  ->  $1#"
    ⟨catL [.grp 1 (catL [litS "xlink:href", .starG spaceGo, litS "=", .starG spaceGo,
                         .cls quoteCh]),
           litS "http", .opt (litS "s"), litS "://", .starG notQuote, .cls quoteCh],
      [.ref 1, .str "#\"".data], "external xlink:href", .externalRef⟩,
    -- (?is)<foreignObject\b[^>]*>.*?</foreignObject>  ->  ""
    ⟨catL [litS "<foreignObject", .wordBAfter, .starG notGt, litS ">", .starL anyCh,
           litS "</foreignObject>"], [], "foreignObject element", .externalRef⟩,
    -- (?i)<foreignObject\b[^>]*/>  ->  ""
    ⟨catL [litS "<foreignObject", .wordBAfter, .starG notGt, litS "/>"], [],
      "self-closing foreignObject", .externalRef⟩,
    -- (?i)(url\s*\(\s*["']?)https?://[^)"']+([)"']?)  ->  ${1}none${2}
    ⟨catL [.grp 1 (catL [litS "url", .starG spaceGo, litS "(", .starG spaceGo,
                         .opt (.cls quoteCh)]),
           litS "http", .opt (litS "s"), litS "://", .plusG notParenQuote,
           .grp 2 (.opt (.cls closeParenQuote))],
      [.ref 1, .str "none".data, .ref 2], "external URL in style", .externalRef⟩ ]

/-- The rule set selected by the options, in the order SanitizeContent collects
it: scripts, event handlers, external refs, then (RemoveAll only) XML entities. -/
def sanitizePatternsFor (opts : SanitizeOptions) : List SanitizePattern :=
  (if opts.removeAll || opts.removeScripts then scriptRemovalPatterns else []) ++
  (if opts.removeAll || opts.removeEventHandlers then eventHandlerRemovalPatterns else []) ++
  (if opts.removeAll || opts.removeExternalRefs then externalRefRemovalPatterns else []) ++
  (if opts.removeAll then xmlEntityRemovalPatterns else [])

/-- Truncation of a removed-threat match for display (fixed cap of 80). -/
def truncate80 (m : List Char) : String :=
  if m.length > 80 then String.mk (m.take 80 ++ "...".data) else String.mk m

/-- One step of SanitizeContent: record one Threat per match of the rule in the
current text, then apply the rule's replacement. -/
def applySanitizePattern (st : List Char × List Threat) (p : SanitizePattern) :
    List Char × List Threat :=
  let newThreats := (findAll p.pattern st.1).map fun m =>
    Threat.mk p.threatType p.desc (truncate80 m)
  (replaceAll p.pattern p.replacement st.1, st.2 ++ newThreats)

/-- SanitizeContent removes security threats from SVG content in memory. -/
def sanitizeContent (content : String) (opts : SanitizeOptions) :
    String × List Threat :=
  let res := (sanitizePatternsFor opts).foldl applySanitizePattern (content.data, [])
  (String.mk res.1, res.2)

/-- SanitizeResult contains the result of sanitizing an SVG file. -/
structure SanitizeResult where
  inputPath : String
  outputPath : String
  threatsRemoved : List Threat
  sanitized : Bool
deriving DecidableEq, Repr

/-- Sanitize removes security threats from an SVG file; file I/O abstracted as
in `svgWithLevel` (`Sanitized` is true iff at least one threat was recorded). -/
def sanitize (inputPath outputPath : String) (readResult : Except String String)
    (opts : SanitizeOptions) : Except String SanitizeResult :=
  match readResult with
  | .error e => .error ("failed to read input file: " ++ e)
  | .ok content =>
      let res := sanitizeContent content opts
      .ok ⟨inputPath, outputPath, res.2, decide (0 < res.2.length)⟩

/-! Report generator (report.go).  Only the report fields some claim is about
are modelled: status, the summary counters and the footer action items.  The
per-category team sections and the timestamp/schema fields are presentation
that no claim mentions. -/

/-- Status represents the Go/No-Go status for a report. -/
inductive Status where
  | go
  | noGo
  | warn
  | skip
deriving DecidableEq, Repr

/-- KVPair represents a key-value pair in content blocks. -/
structure KVPair where
  key : String
  value : String
  icon : String
deriving DecidableEq, Repr

/-- ContentBlock represents rich content in the report (the fields used by the
summary and footer blocks). -/
structure ContentBlock where
  type : String
  title : String
  pairs : List KVPair
deriving DecidableEq, Repr

/-- TeamReport represents the full security scan report (modelled fields). -/
structure TeamReport where
  project : String
  version : String
  phase : String
  status : Status
  summaryBlocks : List ContentBlock
  footerBlocks : List ContentBlock
deriving DecidableEq, Repr

/-- formatInt converts an integer to string. -/
def formatInt (n : Nat) : String := toString n

/-- One conditional append in the footer's action-item chain: on a nonzero
category append one numbered line and advance the counter. -/
def addItem (st : List KVPair × Nat) (cond : Prop) [Decidable cond]
    (icon text : String) : List KVPair × Nat :=
  if cond then (st.1 ++ [⟨formatInt st.2, text, icon⟩], st.2 + 1) else st

/-- The per-category tally over every threat of every result (the
`threatsByType` map of GenerateReport, as a total function). -/
def batchCounts (results : List Result) : ThreatType → Nat :=
  fun tt => ((results.flatMap Result.threats).filter fun t => t.type == tt).length

/-- GenerateReport creates a TeamReport from scan results. -/
def generateReport (results : List Result) (project version : String) : TeamReport :=
  let totalFiles := results.length
  let secureFiles := (results.filter Result.isSuccess).length
  let allThreats := results.flatMap Result.threats
  let threatsByType : ThreatType → Nat := batchCounts results
  -- Determine overall status
  let status : Status :=
    if 0 < allThreats.length then
      if 0 < threatsByType .script ∨ 0 < threatsByType .eventHandler ∨
          0 < threatsByType .externalRef ∨ 0 < threatsByType .xmlEntity then
        .noGo
      else
        .warn
    else .go
  -- Summary block
  let summaryBlocks : List ContentBlock :=
    [⟨"kv_pairs", "",
      [⟨"Files Scanned", formatInt totalFiles, ""⟩,
       ⟨"Secure Files", formatInt secureFiles, ""⟩,
       ⟨"Files with Threats", formatInt (totalFiles - secureFiles), ""⟩,
       ⟨"Total Threats", formatInt allThreats.length, ""⟩]⟩]
  -- Footer with action items if threats found
  let footerBlocks : List ContentBlock :=
    if 0 < allThreats.length then
      let st1 := addItem ([], 1) (0 < threatsByType .script ∨ 0 < threatsByType .eventHandler)
        "🔴" "Remove all script elements and event handlers (CRITICAL)"
      let st2 := addItem st1 (0 < threatsByType .externalRef)
        "🔴" "Remove external references and foreignObject elements (HIGH)"
      let st3 := addItem st2 (0 < threatsByType .xmlEntity)
        "🟡" "Remove DOCTYPE and ENTITY declarations (HIGH)"
      let st4 := addItem st3 (0 < threatsByType .animation)
        "🟡" "Remove animation elements for static images (MEDIUM)"
      let st5 := addItem st4 (0 < threatsByType .styleBlock)
        "🟢" "Consider inlining styles and removing style blocks (LOW)"
      let st6 := addItem st5 (0 < threatsByType .link)
        "🟡" "Remove anchor elements for static images (MEDIUM)"
      if 0 < st6.1.length then [⟨"kv_pairs", "ACTION ITEMS", st6.1⟩] else []
    else []
  ⟨project, version, "SECURITY VALIDATION", status, summaryBlocks, footerBlocks⟩

/-- All action-item lines of a report's footer. -/
def footerPairs (r : TeamReport) : List KVPair :=
  r.footerBlocks.flatMap ContentBlock.pairs

/-- The four categories RemoveAll sanitization covers, which are exactly the
critical/high severity categories of the report. -/
def isCriticalOrHigh (t : ThreatType) : Bool :=
  t == .script || t == .eventHandler || t == .externalRef || t == .xmlEntity

/-! Claims about the report generator's overall status. -/

lemma batch_filter_pos {results : List Result} {t : Threat} {c : ThreatType}
    (ht : t ∈ results.flatMap Result.threats) (hc : t.type = c) :
    0 < batchCounts results c :=
  List.length_pos.mpr (List.ne_nil_of_mem (List.mem_filter.mpr ⟨ht, by simp [hc]⟩))

lemma batch_filter_all_low {results : List Result} {c : ThreatType}
    (hall : ∀ t ∈ results.flatMap Result.threats,
      t.type = .animation ∨ t.type = .styleBlock ∨ t.type = .link)
    (hc : c = .script ∨ c = .eventHandler ∨ c = .externalRef ∨ c = .xmlEntity) :
    batchCounts results c = 0 := by
  rw [batchCounts]
  rw [List.length_eq_zero, List.filter_eq_nil_iff]
  intro t ht
  rcases hall t ht with h | h | h <;> rcases hc with rfl | rfl | rfl | rfl <;> simp [h]

/-- C2: GenerateReport assigns overall status GO when the batch has zero
threats; NO-GO when any Script, EventHandler, ExternalRef or XMLEntity threat
is present anywhere in the batch; and WARN when at least one threat exists but
all threats are of category Animation, StyleBlock or Link. -/
theorem generateReport_status_correct (results : List Result) (project version : String) :
    ((results.flatMap Result.threats) = [] →
        (generateReport results project version).status = .go) ∧
    (∀ t ∈ results.flatMap Result.threats,
        t.type = .script ∨ t.type = .eventHandler ∨
          t.type = .externalRef ∨ t.type = .xmlEntity →
        (generateReport results project version).status = .noGo) ∧
    (results.flatMap Result.threats ≠ [] →
      (∀ t ∈ results.flatMap Result.threats,
          t.type = .animation ∨ t.type = .styleBlock ∨ t.type = .link) →
        (generateReport results project version).status = .warn) := by
  refine ⟨?_, ?_, ?_⟩
  · intro h
    simp [generateReport, h]
  · intro t ht hcrit
    have hlen : 0 < (results.flatMap Result.threats).length :=
      List.length_pos.mpr (List.ne_nil_of_mem ht)
    simp only [generateReport]
    rw [if_pos hlen]
    rcases hcrit with h | h | h | h
    · rw [if_pos (Or.inl (batch_filter_pos ht h))]
    · rw [if_pos (Or.inr (Or.inl (batch_filter_pos ht h)))]
    · rw [if_pos (Or.inr (Or.inr (Or.inl (batch_filter_pos ht h))))]
    · rw [if_pos (Or.inr (Or.inr (Or.inr (batch_filter_pos ht h))))]
  · intro hne hall
    have hlen : 0 < (results.flatMap Result.threats).length := List.length_pos.mpr hne
    simp only [generateReport]
    rw [if_pos hlen]
    rw [if_neg]
    rintro (h | h | h | h)
    · rw [batch_filter_all_low hall (Or.inl rfl)] at h; exact Nat.lt_irrefl 0 h
    · rw [batch_filter_all_low hall (Or.inr (Or.inl rfl))] at h; exact Nat.lt_irrefl 0 h
    · rw [batch_filter_all_low hall (Or.inr (Or.inr (Or.inl rfl)))] at h
      exact Nat.lt_irrefl 0 h
    · rw [batch_filter_all_low hall (Or.inr (Or.inr (Or.inr rfl)))] at h
      exact Nat.lt_irrefl 0 h

/-- Witness for the status theorem at concrete batches: a batch with only a
StyleBlock threat reports WARN, and a batch with a Script threat reports NO-GO. -/
theorem generateReport_status_correct_witness :
    (generateReport [⟨"a.svg", false, [⟨.styleBlock, "style element", "<style"⟩],
        bump emptyCounts .styleBlock, []⟩] "p" "v").status = .warn ∧
    (generateReport [⟨"b.svg", false, [⟨.script, "script element", "<script>"⟩],
        bump emptyCounts .script, []⟩] "p" "v").status = .noGo := by
  constructor
  · exact (generateReport_status_correct _ "p" "v").2.2 (by decide) (by decide)
  · exact (generateReport_status_correct _ "p" "v").2.1
      ⟨.script, "script element", "<script>"⟩ (by decide) (by decide)

/-- C10: report generation only ever returns GO, NO-GO or WARN (the declared
SKIP status is never produced), and the empty batch reports GO with zero files
counted in the summary. -/
theorem generateReport_status_never_skip (results : List Result) (project version : String) :
    ((generateReport results project version).status = .go ∨
     (generateReport results project version).status = .noGo ∨
     (generateReport results project version).status = .warn) ∧
    (generateReport ([] : List Result) project version).status = .go ∧
    (generateReport ([] : List Result) project version).summaryBlocks =
      [⟨"kv_pairs", "",
        [⟨"Files Scanned", "0", ""⟩, ⟨"Secure Files", "0", ""⟩,
         ⟨"Files with Threats", "0", ""⟩, ⟨"Total Threats", "0", ""⟩]⟩] := by
  refine ⟨?_, by rfl, by rfl⟩
  simp only [generateReport]
  split
  · split
    · exact Or.inr (Or.inl rfl)
    · exact Or.inr (Or.inr rfl)
  · exact Or.inl rfl

/-! Claims about the footer action items. -/

/-- The seven categories in their declaration order. -/
def threatTypeAll : List ThreatType :=
  [.script, .eventHandler, .externalRef, .animation, .styleBlock, .link, .xmlEntity]

/-- Number of categories with a nonzero count in a batch. -/
def nonzeroCategoryCount (results : List Result) : Nat :=
  (threatTypeAll.filter fun c => decide (0 < batchCounts results c)).length

/-- Number consecutive rows (icon, text) starting at `n`. -/
def numberFrom (n : Nat) : List (String × String) → List KVPair
  | [] => []
  | r :: rs => ⟨formatInt n, r.2, r.1⟩ :: numberFrom (n + 1) rs

/-- Modelled from the amended claim: the footer rows the report actually emits,
in the code's fixed order.  Script and EventHandler share a single combined
CRITICAL line; the remaining five categories each get one line when nonzero,
in the order ExternalRef, XMLEntity, Animation, StyleBlock, Link (which places
the LOW StyleBlock line before the MEDIUM Link line), each tagged with the
category's severity in its text. -/
def actionRowsSpec (tb : ThreatType → Nat) : List (String × String) :=
  (if 0 < tb .script ∨ 0 < tb .eventHandler then
     [("🔴", "Remove all script elements and event handlers (CRITICAL)")] else []) ++
  (if 0 < tb .externalRef then
     [("🔴", "Remove external references and foreignObject elements (HIGH)")] else []) ++
  (if 0 < tb .xmlEntity then
     [("🟡", "Remove DOCTYPE and ENTITY declarations (HIGH)")] else []) ++
  (if 0 < tb .animation then
     [("🟡", "Remove animation elements for static images (MEDIUM)")] else []) ++
  (if 0 < tb .styleBlock then
     [("🟢", "Consider inlining styles and removing style blocks (LOW)")] else []) ++
  (if 0 < tb .link then
     [("🟡", "Remove anchor elements for static images (MEDIUM)")] else [])

/-- The amended footer contents: the selected rows numbered from 1. -/
def actionItemsSpec (tb : ThreatType → Nat) : List KVPair :=
  numberFrom 1 (actionRowsSpec tb)

lemma footer_chain_spec (tb : ThreatType → Nat) :
    (addItem (addItem (addItem (addItem (addItem (addItem ([], 1)
        (0 < tb .script ∨ 0 < tb .eventHandler)
          "🔴" "Remove all script elements and event handlers (CRITICAL)")
        (0 < tb .externalRef)
          "🔴" "Remove external references and foreignObject elements (HIGH)")
        (0 < tb .xmlEntity)
          "🟡" "Remove DOCTYPE and ENTITY declarations (HIGH)")
        (0 < tb .animation)
          "🟡" "Remove animation elements for static images (MEDIUM)")
        (0 < tb .styleBlock)
          "🟢" "Consider inlining styles and removing style blocks (LOW)")
        (0 < tb .link)
          "🟡" "Remove anchor elements for static images (MEDIUM)").1 =
      actionItemsSpec tb := by
  by_cases h1 : 0 < tb .script ∨ 0 < tb .eventHandler <;>
    by_cases h2 : 0 < tb .externalRef <;>
    by_cases h3 : 0 < tb .xmlEntity <;>
    by_cases h4 : 0 < tb .animation <;>
    by_cases h5 : 0 < tb .styleBlock <;>
    by_cases h6 : 0 < tb .link <;>
    simp [addItem, actionItemsSpec, actionRowsSpec, numberFrom, h1, h2, h3, h4, h5, h6]

lemma batchCounts_zero_of_no_threats {results : List Result}
    (h : results.flatMap Result.threats = []) (c : ThreatType) :
    batchCounts results c = 0 := by
  simp [batchCounts, h]

/-- Counterexample to C8 as stated: in a batch with one Script threat and one
EventHandler threat, two categories have nonzero counts but the footer has a
single (combined) action line, so the footer does not have one line per
nonzero category. -/
theorem footer_not_one_line_per_category :
    ¬ ((footerPairs (generateReport
          [⟨"f.svg", false,
            [⟨.script, "script element", "<script>"⟩,
             ⟨.eventHandler, "event handler attribute", " onclick=\"x\""⟩],
            bump (bump emptyCounts .script) .eventHandler, []⟩] "p" "v")).length =
        nonzeroCategoryCount
          [⟨"f.svg", false,
            [⟨.script, "script element", "<script>"⟩,
             ⟨.eventHandler, "event handler attribute", " onclick=\"x\""⟩],
            bump (bump emptyCounts .script) .eventHandler, []⟩]) := by
  decide

/-- C8 (amended): for every batch, the footer's action-item list is exactly the
numbered row list of `actionRowsSpec`: one line per nonzero category except
that Script and EventHandler share a single combined CRITICAL first line, in
the code's fixed order (ExternalRef, XMLEntity, Animation, StyleBlock, Link
after it), each line tagged with its severity and numbered consecutively
from 1.  (When the batch has no threats the footer is empty, matching the
empty row list.) -/
theorem footer_action_items_spec (results : List Result) (project version : String) :
    footerPairs (generateReport results project version) =
      actionItemsSpec (batchCounts results) := by
  by_cases h : 0 < (results.flatMap Result.threats).length
  · simp only [generateReport, footerPairs, if_pos h]
    rw [footer_chain_spec (batchCounts results)]
    split
    · simp
    · rename_i hlen
      have hnil : actionItemsSpec (batchCounts results) = [] := by
        rcases List.eq_nil_or_concat (actionItemsSpec (batchCounts results)) with hn | ⟨l, x, hx⟩
        · exact hn
        · exact absurd (by rw [hx]; simp) hlen
      simp [hnil]
  · have hempty : results.flatMap Result.threats = [] :=
      List.length_eq_zero.mp (Nat.eq_zero_of_not_pos h)
    simp only [generateReport, footerPairs, if_neg h]
    simp [actionItemsSpec, actionRowsSpec, batchCounts_zero_of_no_threats hempty, numberFrom]

/-! Claim about directory scans and read failures. -/

/-- C9: a failed read of one enumerated file yields, for that file only, a
result whose secure flag is false and whose error list is the non-empty
singleton of the wrapped read error, while every other (readable) file is
still scanned and its result returned in place; the batch length is preserved.
The same holds for the recursive variant. -/
theorem directory_read_failure_isolated (files : List (String × Except String String))
    (i : Nat) (path e : String)
    (hi : files[i]? = some (path, .error e)) :
    (directory files).length = files.length ∧
    (directory files)[i]? =
      some ⟨path, false, [], emptyCounts, ["failed to read file: " ++ e]⟩ ∧
    (∀ (j : Nat) (path2 content : String), files[j]? = some (path2, .ok content) →
      (directory files)[j]? =
        some (scanContentWithLevel content (some (freshResult path2)) .strict)) ∧
    (directoryRecursive files).length = files.length ∧
    (directoryRecursive files)[i]? =
      some ⟨path, false, [], emptyCounts, ["failed to read file: " ++ e]⟩ := by
  refine ⟨by simp [directory], ?_, ?_, by simp [directoryRecursive], ?_⟩
  · simp [directory, List.getElem?_map, hi, svgFile, svgWithLevel]
  · intro j path2 content hj
    simp [directory, List.getElem?_map, hj, svgFile, svgWithLevel]
  · simp [directoryRecursive, List.getElem?_map, hi, svgFile, svgWithLevel]

/-- Witness for the read-failure theorem on a concrete two-file batch. -/
theorem directory_read_failure_isolated_witness :
    (directory [("a.svg", .error "boom"), ("b.svg", .ok "<svg/>")]).length = 2 ∧
    ((directory [("a.svg", .error "boom"), ("b.svg", .ok "<svg/>")])[0]?).map
        Result.isSecure = some false ∧
    ((directory [("a.svg", .error "boom"), ("b.svg", .ok "<svg/>")])[0]?).map
        Result.errors = some ["failed to read file: boom"] := by
  obtain ⟨hlen, herr, hok, _, _⟩ :=
    directory_read_failure_isolated
      [("a.svg", .error "boom"), ("b.svg", .ok "<svg/>")] 0 "a.svg" "boom" rfl
  exact ⟨by rw [hlen]; rfl, by rw [herr]; rfl, by rw [herr]; rfl⟩

/-! Claim C4: the ThreatCounts map always agrees with the Threats list. -/

/-- The threats one pattern contributes on some content. -/
def patternThreats (p : ThreatPattern) (content : List Char) : List Threat :=
  (findAll p.pattern content).map fun m =>
    ⟨p.threatType, p.desc, truncateMatch m p.matchLength⟩

/-- The threats a pattern list contributes, in catalog order. -/
def collectThreats (ps : List ThreatPattern) (content : List Char) : List Threat :=
  ps.flatMap fun p => patternThreats p content

lemma applyPattern_threats (content : List Char) (r : Result) (p : ThreatPattern) :
    (applyPattern content r p).threats = r.threats ++ patternThreats p content := by
  rw [applyPattern, patternThreats]
  generalize findAll p.pattern content = ms
  induction ms generalizing r with
  | nil => simp
  | cons m ms ih => simp [List.foldl_cons, ih]

lemma applyPattern_counts (content : List Char) (r : Result) (p : ThreatPattern) (X : ThreatType) :
    (applyPattern content r p).threatCounts X =
      r.threatCounts X + ((patternThreats p content).filter fun t => t.type == X).length := by
  rw [applyPattern, patternThreats]
  generalize findAll p.pattern content = ms
  induction ms generalizing r with
  | nil => simp
  | cons m ms ih =>
      simp only [List.foldl_cons, List.map_cons, List.filter_cons, ih, bump]
      by_cases hX : X = p.threatType
      · simp [hX, Nat.add_comm, Nat.add_assoc, Nat.add_left_comm]
      · have : ¬ (p.threatType == X) = true := by
          simp [beq_iff_eq]; exact fun hc => hX hc.symm
        simp [if_neg hX, this]

lemma scanFold_threats (content : List Char) (ps : List ThreatPattern) (r : Result) :
    (ps.foldl (applyPattern content) r).threats = r.threats ++ collectThreats ps content := by
  induction ps generalizing r with
  | nil => simp [collectThreats]
  | cons p ps ih =>
      simp only [List.foldl_cons, ih, applyPattern_threats, collectThreats, List.flatMap_cons,
        List.append_assoc]

lemma scanFold_counts (content : List Char) (ps : List ThreatPattern) (r : Result) (X : ThreatType) :
    (ps.foldl (applyPattern content) r).threatCounts X =
      r.threatCounts X + ((collectThreats ps content).filter fun t => t.type == X).length := by
  induction ps generalizing r with
  | nil => simp [collectThreats]
  | cons p ps ih =>
      simp only [List.foldl_cons, ih, applyPattern_counts, collectThreats, List.flatMap_cons,
        List.filter_append, List.length_append, Nat.add_assoc]

/-- C4: every result produced by a scan has, for every category, a ThreatCounts
entry equal to the number of threats of that category in its Threats list: this
holds for ScanContentWithLevel (given that the caller-supplied accumulator
result, when present, already satisfies it — freshly built results do), for
SVGWithLevel, and for every result of Directory and DirectoryRecursive. -/
theorem threat_counts_consistent :
    (∀ (content : String) (r : Result) (level : ScanLevel) (X : ThreatType),
      (∀ Y, r.threatCounts Y = (r.threats.filter fun t => t.type == Y).length) →
      (scanContentWithLevel content (some r) level).threatCounts X =
        ((scanContentWithLevel content (some r) level).threats.filter
          fun t => t.type == X).length) ∧
    (∀ (content : String) (level : ScanLevel) (X : ThreatType),
      (scanContentWithLevel content none level).threatCounts X =
        ((scanContentWithLevel content none level).threats.filter
          fun t => t.type == X).length) ∧
    (∀ (path : String) (readResult : Except String String) (level : ScanLevel)
        (r : Result) (X : ThreatType),
      svgWithLevel path readResult level = .ok r →
      r.threatCounts X = (r.threats.filter fun t => t.type == X).length) ∧
    (∀ (files : List (String × Except String String)) (r : Result) (X : ThreatType),
      r ∈ directory files →
      r.threatCounts X = (r.threats.filter fun t => t.type == X).length) ∧
    (∀ (files : List (String × Except String String)) (r : Result) (X : ThreatType),
      r ∈ directoryRecursive files →
      r.threatCounts X = (r.threats.filter fun t => t.type == X).length) := by
  have hsome : ∀ (content : String) (r : Result) (level : ScanLevel) (X : ThreatType),
      (∀ Y, r.threatCounts Y = (r.threats.filter fun t => t.type == Y).length) →
      (scanContentWithLevel content (some r) level).threatCounts X =
        ((scanContentWithLevel content (some r) level).threats.filter
          fun t => t.type == X).length := by
    intro content r level X hr
    rw [scanContentWithLevel]
    simp only [scanFold_counts, scanFold_threats, List.filter_append, List.length_append, hr X]
  have hfresh : ∀ (path content : String) (level : ScanLevel) (X : ThreatType),
      (scanContentWithLevel content (some (freshResult path)) level).threatCounts X =
        ((scanContentWithLevel content (some (freshResult path)) level).threats.filter
          fun t => t.type == X).length := by
    intro path content level X
    exact hsome content (freshResult path) level X (fun _ => rfl)
  refine ⟨hsome, ?_, ?_, ?_, ?_⟩
  · intro content level X
    exact hsome content (freshResult "") level X (fun _ => rfl)
  · intro path readResult level r X hok
    cases readResult with
    | error e => simp [svgWithLevel] at hok
    | ok content =>
        simp only [svgWithLevel, Except.ok.injEq] at hok
        rw [← hok]
        exact hfresh path content level X
  · intro files r X hr
    simp only [directory, List.mem_map] at hr
    obtain ⟨f, _, hf⟩ := hr
    cases hc : f.2 with
    | error e => rw [← hf]; simp [svgFile, svgWithLevel, hc, emptyCounts]
    | ok content =>
        rw [← hf]
        simp only [svgFile, svgWithLevel, hc]
        exact hfresh f.1 content .strict X
  · intro files r X hr
    simp only [directoryRecursive, List.mem_map] at hr
    obtain ⟨f, _, hf⟩ := hr
    cases hc : f.2 with
    | error e => rw [← hf]; simp [svgFile, svgWithLevel, hc, emptyCounts]
    | ok content =>
        rw [← hf]
        simp only [svgFile, svgWithLevel, hc]
        exact hfresh f.1 content .strict X

/-- Witness for the count-consistency theorem: a concrete scan that finds an
event handler, checked at the EventHandler category. -/
theorem threat_counts_consistent_witness :
    (scanContentWithLevel "<svg onclick=\"x\"/>" (some (freshResult "f.svg"))
        .strict).threatCounts .eventHandler =
      ((scanContentWithLevel "<svg onclick=\"x\"/>" (some (freshResult "f.svg"))
          .strict).threats.filter fun t => t.type == .eventHandler).length :=
  threat_counts_consistent.1 "<svg onclick=\"x\"/>" (freshResult "f.svg")
    .strict .eventHandler (fun _ => rfl)

/-! Claim C3: Standard-level threats are a subset of Strict-level threats. -/

/-- C3: every threat reported by a Standard-level scan of some content is also
reported by the Strict-level scan of that content (Standard evaluates a prefix
of the Strict pattern list). -/
theorem scan_standard_subset_strict (content : String) (t : Threat)
    (ht : t ∈ (scanContentWithLevel content none .standard).threats) :
    t ∈ (scanContentWithLevel content none .strict).threats := by
  rw [scanContentWithLevel] at ht ⊢
  rw [scanFold_threats] at ht ⊢
  rw [List.mem_append] at ht ⊢
  rcases ht with ht | ht
  · exact Or.inl ht
  · right
    have hsplit : patternsForLevel .strict = patternsForLevel .standard ++
        (animationPatterns ++ styleBlockPatterns ++ linkPatterns) := by
      simp [patternsForLevel, List.append_assoc]
    rw [hsplit, collectThreats, List.flatMap_append, List.mem_append]
    exact Or.inl ht

/-- Witness: a concrete event-handler threat found at Standard level is also in
the Strict-level threat list. -/
theorem scan_standard_subset_strict_witness :
    (⟨.eventHandler, "event handler attribute", " onclick=\"x\""⟩ : Threat) ∈
      (scanContentWithLevel "<svg onclick=\"x\"/>" none .strict).threats :=
  scan_standard_subset_strict "<svg onclick=\"x\"/>"
    ⟨.eventHandler, "event handler attribute", " onclick=\"x\""⟩ (by decide)

/-! Generic lemmas about the matcher, used to evaluate sanitization on inputs
with a symbolic part. -/

lemma findAllAux_succ_cons (re : RE) (f : Nat) (c : Char) (t : List Char) :
    findAllAux re (f + 1) (c :: t) =
      match firstMatch re (c :: t) with
      | some (0, _) => [] :: findAllAux re f t
      | some (n + 1, _) =>
          ((c :: t).take (n + 1)) :: findAllAux re f ((c :: t).drop (n + 1))
      | none => findAllAux re f t := rfl

lemma findAllAux_fuel (re : RE) :
    ∀ (f : Nat) (s : List Char), s.length < f → findAllAux re f s = findAll re s := by
  intro f
  induction f using Nat.strong_induction_on with
  | _ f ih =>
    intro s hf
    match f, s with
    | f + 1, [] => rfl
    | f + 1, c :: t =>
        have hf' : t.length < f := by
          simp only [List.length_cons] at hf
          omega
        rw [findAll]
        simp only [List.length_cons]
        rw [findAllAux_succ_cons, findAllAux_succ_cons]
        cases hm : firstMatch re (c :: t) with
        | none =>
            simp only
            rw [ih f (Nat.lt_succ_self f) t hf', findAll,
              ih (t.length + 1) (by omega) t (Nat.lt_succ_self _)]
        | some x =>
            obtain ⟨n, g⟩ := x
            cases n with
            | zero =>
                simp only
                rw [ih f (Nat.lt_succ_self f) t hf', findAll,
                  ih (t.length + 1) (by omega) t (Nat.lt_succ_self _)]
            | succ n =>
                simp only
                rw [ih f (Nat.lt_succ_self f) ((c :: t).drop (n + 1))
                    (by simp only [List.length_drop, List.length_cons]; omega),
                  ih (t.length + 1) (by omega) ((c :: t).drop (n + 1))
                    (by simp only [List.length_drop, List.length_cons]; omega)]

lemma replaceAllAux_succ_cons (re : RE) (tm : Tmpl) (f : Nat) (c : Char) (t : List Char) :
    replaceAllAux re tm (f + 1) (c :: t) =
      match firstMatch re (c :: t) with
      | some (0, g) => instT tm g ++ c :: replaceAllAux re tm f t
      | some (n + 1, g) => instT tm g ++ replaceAllAux re tm f ((c :: t).drop (n + 1))
      | none => c :: replaceAllAux re tm f t := rfl

lemma replaceAllAux_fuel (re : RE) (tm : Tmpl) :
    ∀ (f : Nat) (s : List Char), s.length < f → replaceAllAux re tm f s = replaceAll re tm s := by
  intro f
  induction f using Nat.strong_induction_on with
  | _ f ih =>
    intro s hf
    match f, s with
    | f + 1, [] => rfl
    | f + 1, c :: t =>
        have hf' : t.length < f := by
          simp only [List.length_cons] at hf
          omega
        rw [replaceAll]
        simp only [List.length_cons]
        rw [replaceAllAux_succ_cons, replaceAllAux_succ_cons]
        cases hm : firstMatch re (c :: t) with
        | none =>
            simp only
            rw [ih f (Nat.lt_succ_self f) t hf', replaceAll,
              ih (t.length + 1) (by omega) t (Nat.lt_succ_self _)]
        | some x =>
            obtain ⟨n, g⟩ := x
            cases n with
            | zero =>
                simp only
                rw [ih f (Nat.lt_succ_self f) t hf', replaceAll,
                  ih (t.length + 1) (by omega) t (Nat.lt_succ_self _)]
            | succ n =>
                simp only
                rw [ih f (Nat.lt_succ_self f) ((c :: t).drop (n + 1))
                    (by simp only [List.length_drop, List.length_cons]; omega),
                  ih (t.length + 1) (by omega) ((c :: t).drop (n + 1))
                    (by simp only [List.length_drop, List.length_cons]; omega)]

lemma replaceAll_cons_none {re : RE} {tm : Tmpl} {c : Char} {t : List Char}
    (h : firstMatch re (c :: t) = none) :
    replaceAll re tm (c :: t) = c :: replaceAll re tm t := by
  rw [replaceAll]
  simp only [List.length_cons]
  rw [replaceAllAux_succ_cons, h]
  rw [replaceAllAux_fuel re tm (t.length + 1) t (Nat.lt_succ_self _)]

lemma replaceAll_cons_match {re : RE} {tm : Tmpl} {c : Char} {t : List Char}
    {n : Nat} {g : Caps} (h : firstMatch re (c :: t) = some (n + 1, g)) :
    replaceAll re tm (c :: t) = instT tm g ++ replaceAll re tm ((c :: t).drop (n + 1)) := by
  rw [replaceAll]
  simp only [List.length_cons]
  rw [replaceAllAux_succ_cons, h]
  simp only
  rw [replaceAllAux_fuel re tm (t.length + 1) ((c :: t).drop (n + 1))
    (by simp only [List.length_drop, List.length_cons]; omega)]

lemma mrun_cat_single {a b : RE} {s : List Char} {n : Nat} {g : Caps}
    (h : mrun a s = [(n, g)]) :
    mrun (RE.cat a b) s = (mrun b (s.drop n)).map fun y => (n + y.1, g ++ y.2) := by
  simp [mrun, h]

lemma mrun_cat_nil {a b : RE} {s : List Char} (h : mrun a s = []) :
    mrun (RE.cat a b) s = [] := by
  simp [mrun, h]

lemma ciEq_refl (c : Char) : ciEq c c = true := by
  simp [ciEq]

lemma ciStarts_self_append (w r : List Char) : ciStarts w (w ++ r) = true := by
  induction w with
  | nil => rfl
  | cons c w ih => simp [ciStarts, ciEq_refl, ih]

/-- A case-insensitive literal always matches its own spelling followed by
anything. -/
lemma mrun_lit_self_append (w r : List Char) :
    mrun (RE.lit w) (w ++ r) = [(w.length, [])] := by
  simp [mrun, ciStarts_self_append]

lemma lazyOpts_eq_cons (p : Char → Bool) (l : List Char) :
    ∃ rest, lazyOpts p l = 0 :: rest := by
  cases l with
  | nil => exact ⟨[], rfl⟩
  | cons c t =>
      by_cases hc : p c = true
      · exact ⟨(lazyOpts p t).map (· + 1), by simp [lazyOpts, hc]⟩
      · exact ⟨[], by simp [lazyOpts, hc]⟩

lemma greedyOpts_append (p : Char → Bool) (v : List Char) (c0 : Char) (r : List Char)
    (hv : ∀ c ∈ v, p c = true) (hc : p c0 = false) :
    greedyOpts p (v ++ c0 :: r) = (List.range (v.length + 1)).reverse := by
  induction v with
  | nil =>
      rw [List.nil_append]
      rw [show greedyOpts p (c0 :: r) = [0] by simp [greedyOpts, hc]]
      decide
  | cons c v ih =>
      have hpc : p c = true := hv c (List.mem_cons_self c v)
      have ih' := ih fun x hx => hv x (List.mem_cons_of_mem c hx)
      rw [List.cons_append]
      rw [show greedyOpts p (c :: (v ++ c0 :: r)) =
        (greedyOpts p (v ++ c0 :: r)).map (· + 1) ++ [0] by simp [greedyOpts, hpc]]
      rw [ih', List.length_cons]
      conv_rhs => rw [List.range_succ_eq_map, List.reverse_cons, ← List.map_reverse]

lemma head_flatMap_cons {α β : Type} (x : α) (xs : List α) (f : α → List β) (y : β)
    (ys : List β) (h : f x = y :: ys) : ((x :: xs).flatMap f).head? = some y := by
  simp [List.flatMap_cons, h]

lemma head_flatMap_cons_nil {α β : Type} (x : α) (xs : List α) (f : α → List β)
    (h : f x = []) : ((x :: xs).flatMap f).head? = (xs.flatMap f).head? := by
  simp [List.flatMap_cons, h]

lemma flatMap_shift {l : List Nat} {F : Nat → List (Nat × Caps)}
    {G : Nat → List (Nat × Caps)}
    (hFG : ∀ n, F (n + 1) = (G n).map fun z => (z.1 + 1, z.2)) :
    (l.map (· + 1)).flatMap F = (l.flatMap G).map fun z => (z.1 + 1, z.2) := by
  induction l with
  | nil => rfl
  | cons a l ih => simp [List.flatMap_cons, hFG, ih]

/-- Head of the match list of `.*?W` style patterns: a lazy star over `p`
followed by `b`, on `s ++ X` where `b` fails at every position inside `s` and
first succeeds exactly at `X`, consumes `s` and then what `b` consumes. -/
lemma head_mrun_cat_starL (p : Char → Bool) (b : RE) (m : Nat) (g : Caps) :
    ∀ (s X : List Char), (∀ c ∈ s, p c = true) →
    (∀ n, n < s.length → mrun b ((s ++ X).drop n) = []) →
    (mrun b X).head? = some (m, g) →
    (mrun (RE.cat (.starL p) b) (s ++ X)).head? = some (s.length + m, g) := by
  have bridge : ∀ (T : List Char),
      mrun (RE.cat (.starL p) b) T =
        (lazyOpts p T).flatMap
          (fun n => (mrun b (T.drop n)).map fun y => (n + y.1, y.2)) := by
    intro T
    simp [mrun, List.flatMap_map, Function.comp]
  intro s
  induction s with
  | nil =>
      intro X hp hfail hsucc
      obtain ⟨ys, hy⟩ : ∃ ys, mrun b X = (m, g) :: ys := by
        cases hmx : mrun b X with
        | nil => rw [hmx] at hsucc; simp at hsucc
        | cons y ys =>
            rw [hmx] at hsucc
            simp only [List.head?_cons, Option.some.injEq] at hsucc
            exact ⟨ys, by rw [hsucc]⟩
      obtain ⟨rest, hrest⟩ := lazyOpts_eq_cons p X
      rw [List.nil_append, bridge, hrest]
      rw [head_flatMap_cons 0 rest _ (0 + m, g) (ys.map fun z => (0 + z.1, z.2))
        (by simp [hy])]
      simp
  | cons c s ih =>
      intro X hp hfail hsucc
      have hpc : p c = true := hp c (List.mem_cons_self c s)
      have hf0 : mrun b (c :: (s ++ X)) = [] := by
        have := hfail 0 (by simp)
        simpa using this
      rw [List.cons_append, bridge]
      rw [show lazyOpts p (c :: (s ++ X)) = 0 :: (lazyOpts p (s ++ X)).map (· + 1) by
        simp [lazyOpts, hpc]]
      rw [head_flatMap_cons_nil 0 _ _ (by simp [hf0])]
      have step : ((lazyOpts p (s ++ X)).map (· + 1)).flatMap
            (fun n => (mrun b ((c :: (s ++ X)).drop n)).map fun y => (n + y.1, y.2)) =
          ((lazyOpts p (s ++ X)).flatMap
            (fun n => (mrun b ((s ++ X).drop n)).map fun y => (n + y.1, y.2))).map
              (fun z => (z.1 + 1, z.2)) := by
        apply flatMap_shift
        intro n
        simp only [List.drop_succ_cons, List.map_map]
        congr 1
        funext y
        simp only [Function.comp_apply]
        rw [Nat.add_right_comm]
      rw [step, ← bridge, List.head?_map,
        ih X (fun x hx => hp x (List.mem_cons_of_mem c hx))
          (fun n hn => by
            have h2 := hfail (n + 1) (Nat.succ_lt_succ hn)
            simp only [List.cons_append, List.drop_succ_cons] at h2
            exact h2) hsucc]
      simp only [Option.map_some', List.length_cons]
      congr 2
      omega

/-! Evaluation of script-element removal on an input with a symbolic body:
`<script>BODY</script>` is matched in full whenever the body contains no `<`. -/

lemma firstMatch_scriptElem (s rest : List Char) (hs : ∀ c ∈ s, ciEq '<' c = false) :
    firstMatch scriptElemDotallRE
      ("<script".data ++ ('>' :: (s ++ ("</script>".data ++ rest)))) =
      some (s.length + 17, []) := by
  rw [firstMatch]
  rw [show scriptElemDotallRE =
    RE.cat (.lit "<script".data)
      (.cat .wordBAfter
        (.cat (.starG notGt)
          (.cat (.lit ">".data)
            (.cat (.starL anyCh)
              (.cat (.lit "</script>".data) .eps))))) from rfl]
  rw [mrun_cat_single (mrun_lit_self_append "<script".data _)]
  rw [List.drop_left' (by rfl)]
  rw [mrun_cat_single (show mrun RE.wordBAfter ('>' :: (s ++ ("</script>".data ++ rest))) =
    [(0, [])] by simp [mrun, wordGo, lowerAscii])]
  rw [List.drop_zero]
  rw [mrun_cat_single (show mrun (RE.starG notGt) ('>' :: (s ++ ("</script>".data ++ rest))) =
    [(0, [])] by simp [mrun, greedyOpts, notGt])]
  rw [List.drop_zero]
  rw [mrun_cat_single (show mrun (RE.lit ">".data)
      ('>' :: (s ++ ("</script>".data ++ rest))) = [(1, [])] from
    mrun_lit_self_append ">".data (s ++ ("</script>".data ++ rest)))]
  rw [List.drop_succ_cons, List.drop_zero]
  have hstar := head_mrun_cat_starL anyCh (RE.cat (.lit "</script>".data) .eps) 9 []
    s ("</script>".data ++ rest) (fun c _ => rfl)
    (by
      intro n hn
      have hne : s.drop n ≠ [] := by
        intro hnil
        have := congrArg List.length hnil
        simp only [List.length_drop, List.length_nil] at this
        omega
      obtain ⟨c0, t0, hct⟩ := List.exists_cons_of_ne_nil hne
      have hc0 : c0 ∈ s := (List.drop_subset n s) (hct ▸ List.mem_cons_self c0 t0)
      rw [List.drop_append_of_le_length (Nat.le_of_lt hn), hct]
      apply mrun_cat_nil
      simp [mrun, ciStarts, hs c0 hc0])
    (by
      rw [mrun_cat_single (mrun_lit_self_append "</script>".data rest)]
      rw [List.drop_left' (by rfl)]
      simp [mrun])
  simp only [List.head?_map, hstar, Option.map_some']
  congr 2
  simp only [show "<script".data.length = 7 from rfl]
  omega

lemma firstMatch_scriptElem_none {T : List Char}
    (h : ciStarts "<script".data T = false) :
    firstMatch scriptElemDotallRE T = none := by
  rw [firstMatch]
  rw [show scriptElemDotallRE =
    RE.cat (.lit "<script".data)
      (.cat .wordBAfter
        (.cat (.starG notGt)
          (.cat (.lit ">".data)
            (.cat (.starL anyCh)
              (.cat (.lit "</script>".data) .eps))))) from rfl]
  rw [mrun_cat_nil (by simp [mrun, h])]
  rfl

/-- Script bodies of the amended claim: letters, digits, parentheses and
whitespace (newlines included). -/
def scriptBodyChar (c : Char) : Bool :=
  azCI c || ('0' ≤ c && c ≤ '9') || c == '(' || c == ')' || spaceGo c

lemma scriptBodyChar_not_lt {c : Char} (h : scriptBodyChar c = true) :
    ciEq '<' c = false := by
  by_contra hne
  rw [Bool.not_eq_false, ciEq, show lowerAscii '<' = '<' from by decide,
    beq_iff_eq] at hne
  simp only [scriptBodyChar, Bool.or_eq_true, Bool.and_eq_true,
    decide_eq_true_eq, beq_iff_eq] at h
  rcases h with ((((haz | hdig) | hop) | hcl) | hsp)
  · rw [azCI, ← hne] at haz
    revert haz
    decide
  · rw [lowerAscii] at hne
    split at hne
    · rename_i hup
      exact absurd (le_trans hup.1 hdig.2) (by decide)
    · rw [← hne] at hdig
      exact absurd hdig.2 (by decide)
  · subst hop
    revert hne
    decide
  · subst hcl
    revert hne
    decide
  · simp only [spaceGo, Bool.or_eq_true, beq_iff_eq] at hsp
    rcases hsp with ((((h5 | h5) | h5) | h5) | h5) <;> subst h5 <;> revert hne <;> decide

/-- The Scenario A shaped inputs of the amended claims C1. -/
def svgScriptWrap (s : List Char) : List Char :=
  "<svg><script>".data ++ s ++ "</script><rect/></svg>".data

/-- The text component of SanitizeContent's fold ignores the accumulated
threat log. -/
lemma sanitizeFold_fst (ps : List SanitizePattern) :
    ∀ (l : List Char) (ts : List Threat),
      (ps.foldl applySanitizePattern (l, ts)).1 =
        ps.foldl (fun l p => replaceAll p.pattern p.replacement l) l := by
  induction ps with
  | nil => intro l ts; rfl
  | cons p ps ih => intro l ts; simp [List.foldl_cons, applySanitizePattern, ih]

lemma replaceAll_scriptElem (s : List Char) (hs : ∀ c ∈ s, ciEq '<' c = false) :
    replaceAll scriptElemDotallRE [] (svgScriptWrap s) = "<svg><rect/></svg>".data := by
  rw [show svgScriptWrap s = '<' :: 's' :: 'v' :: 'g' :: '>' ::
    ('<' :: ("script".data ++
      ('>' :: (s ++ ("</script>".data ++ "<rect/></svg>".data))))) from rfl]
  rw [replaceAll_cons_none (firstMatch_scriptElem_none
    (by simp [ciStarts, ciEq, lowerAscii]))]
  rw [replaceAll_cons_none (firstMatch_scriptElem_none
    (by simp [ciStarts, ciEq, lowerAscii]))]
  rw [replaceAll_cons_none (firstMatch_scriptElem_none
    (by simp [ciStarts, ciEq, lowerAscii]))]
  rw [replaceAll_cons_none (firstMatch_scriptElem_none
    (by simp [ciStarts, ciEq, lowerAscii]))]
  rw [replaceAll_cons_none (firstMatch_scriptElem_none
    (by simp [ciStarts, ciEq, lowerAscii]))]
  rw [replaceAll_cons_match (show firstMatch scriptElemDotallRE
      ('<' :: ("script".data ++
        ('>' :: (s ++ ("</script>".data ++ "<rect/></svg>".data))))) =
      some (s.length + 16 + 1, []) from
    firstMatch_scriptElem s "<rect/></svg>".data hs)]
  have hdrop : (('<' :: ("script".data ++
      ('>' :: (s ++ ("</script>".data ++ "<rect/></svg>".data))))).drop
        (s.length + 16 + 1)) = "<rect/></svg>".data := by
    show (("<script>".data ++
      (s ++ ("</script>".data ++ "<rect/></svg>".data))).drop
        (s.length + 16 + 1)) = "<rect/></svg>".data
    rw [← List.append_assoc, ← List.append_assoc]
    apply List.drop_left'
    simp only [List.length_append, show "<script>".data.length = 8 from rfl,
      show "</script>".data.length = 9 from rfl]
    omega
  rw [hdrop]
  rw [show replaceAll scriptElemDotallRE [] "<rect/></svg>".data =
    "<rect/></svg>".data from by decide]
  decide

/-- Counterexample to C1 as stated: the content `javascript:` is left unchanged
by RemoveAll sanitization (removal only rewrites `javascript:` URIs inside
quoted href attributes) while the Strict scan still reports a Script threat
for it, so sanitize-then-scan does not null the covered categories on every
content string. -/
theorem sanitize_then_scan_cex :
    ((scanContentWithLevel
        (sanitizeContent "javascript:" defaultSanitizeOptions).1
        none .strict).threats.filter fun t => isCriticalOrHigh t.type) ≠ [] := by
  decide

/-- C1 (amended): sanitize-then-scan yields zero covered-category threats when
the covered threats occur in removable form; concretely, for every script body
of letters, digits, parentheses and whitespace (newlines included), RemoveAll
sanitization of `<svg><script>BODY</script><rect/></svg>` followed by a Strict
scan reports zero threats of the categories Script, EventHandler, ExternalRef
and XMLEntity.  (As stated over all content strings the property fails: a bare
`javascript:` token outside an href attribute survives sanitization and is
still flagged, see the counterexample.) -/
theorem sanitize_then_scan_covered (s : List Char)
    (hs : ∀ c ∈ s, scriptBodyChar c = true) :
    ((scanContentWithLevel
        (sanitizeContent (String.mk (svgScriptWrap s)) defaultSanitizeOptions).1
        none .strict).threats.filter fun t => isCriticalOrHigh t.type) = [] := by
  have hsan : (sanitizeContent (String.mk (svgScriptWrap s)) defaultSanitizeOptions).1 =
      "<svg><rect/></svg>" := by
    rw [sanitizeContent]
    simp only
    rw [sanitizeFold_fst]
    rw [show sanitizePatternsFor defaultSanitizeOptions =
      scriptRemovalPatterns ++ eventHandlerRemovalPatterns ++
        externalRefRemovalPatterns ++ xmlEntityRemovalPatterns from rfl]
    rw [show scriptRemovalPatterns ++ eventHandlerRemovalPatterns ++
        externalRefRemovalPatterns ++ xmlEntityRemovalPatterns =
      ⟨scriptElemDotallRE, [], "script element", .script⟩ ::
        (scriptRemovalPatterns.tail ++ eventHandlerRemovalPatterns ++
          externalRefRemovalPatterns ++ xmlEntityRemovalPatterns) from rfl]
    rw [List.foldl_cons]
    simp only
    rw [replaceAll_scriptElem s (fun c hc => scriptBodyChar_not_lt (hs c hc))]
    decide
  rw [hsan]
  decide

/-- Witness: the amended sanitize-then-scan theorem at Scenario A's body. -/
theorem sanitize_then_scan_covered_witness :
    ((scanContentWithLevel
        (sanitizeContent (String.mk (svgScriptWrap "alert(1)".data))
          defaultSanitizeOptions).1
        none .strict).threats.filter fun t => isCriticalOrHigh t.type) = [] :=
  sanitize_then_scan_covered "alert(1)".data (by decide)

/-! Evaluation of double-quoted event-handler removal on an input with a
symbolic handler value. -/

lemma scriptBodyChar_not_dq {c : Char} (h : scriptBodyChar c = true) :
    ciEq '"' c = false := by
  by_contra hne
  rw [Bool.not_eq_false, ciEq, show lowerAscii '"' = '"' from by decide,
    beq_iff_eq] at hne
  simp only [scriptBodyChar, Bool.or_eq_true, Bool.and_eq_true,
    decide_eq_true_eq, beq_iff_eq] at h
  rcases h with ((((haz | hdig) | hop) | hcl) | hsp)
  · rw [azCI, ← hne] at haz
    revert haz
    decide
  · rw [lowerAscii] at hne
    split at hne
    · rename_i hup
      exact absurd (le_trans hup.1 hdig.2) (by decide)
    · rw [← hne] at hdig
      exact absurd hdig.1 (by decide)
  · subst hop
    revert hne
    decide
  · subst hcl
    revert hne
    decide
  · simp only [spaceGo, Bool.or_eq_true, beq_iff_eq] at hsp
    rcases hsp with ((((h5 | h5) | h5) | h5) | h5) <;> subst h5 <;> revert hne <;> decide

lemma scriptBodyChar_notDq {c : Char} (h : scriptBodyChar c = true) :
    notDq c = true := by
  cases hcb : c == '"' with
  | false => simp [notDq, hcb]
  | true =>
      have hc : c = '"' := eq_of_beq hcb
      subst hc
      revert h
      decide

lemma mrun_starG_notDq_close (v rest : List Char)
    (hv : ∀ c ∈ v, notDq c = true) (hv2 : ∀ c ∈ v, ciEq '"' c = false) :
    mrun (RE.cat (.starG notDq) (RE.cat (.lit "\"".data) .eps)) (v ++ ('"' :: rest)) =
      [(v.length + 1, [])] := by
  rw [show mrun (RE.cat (.starG notDq) (RE.cat (.lit "\"".data) .eps))
      (v ++ ('"' :: rest)) =
    ((greedyOpts notDq (v ++ ('"' :: rest))).map fun n => ((n, []) : Nat × Caps)).flatMap
      (fun x => (mrun (RE.cat (.lit "\"".data) .eps)
        ((v ++ ('"' :: rest)).drop x.1)).map fun y => (x.1 + y.1, x.2 ++ y.2)) from rfl]
  rw [greedyOpts_append notDq v '"' rest hv (by decide)]
  rw [show (List.range (v.length + 1)).reverse =
    v.length :: (List.range v.length).reverse from by
      rw [List.range_succ, List.reverse_append]; rfl]
  rw [List.map_cons, List.flatMap_cons]
  rw [show (v ++ ('"' :: rest)).drop v.length = '"' :: rest from
    List.drop_left' rfl]
  rw [show mrun (RE.cat (.lit "\"".data) .eps) ('"' :: rest) = [(1, [])] from by
    rw [mrun_cat_single (show mrun (RE.lit "\"".data) ('"' :: rest) = [(1, [])] from
      mrun_lit_self_append "\"".data rest)]
    rfl]
  rw [show (((List.range v.length).reverse.map fun n => ((n, []) : Nat × Caps)).flatMap
      (fun x => (mrun (RE.cat (.lit "\"".data) .eps)
        ((v ++ ('"' :: rest)).drop x.1)).map fun y => (x.1 + y.1, x.2 ++ y.2))) = [] from by
    rw [List.flatMap_map]
    apply List.flatMap_eq_nil_iff.mpr
    intro n hn
    have hlt : n < v.length := List.mem_range.mp (List.mem_reverse.mp hn)
    have hne : v.drop n ≠ [] := by
      intro hnil
      have := congrArg List.length hnil
      simp only [List.length_drop, List.length_nil] at this
      omega
    obtain ⟨c0, t0, hct⟩ := List.exists_cons_of_ne_nil hne
    have hc0 : c0 ∈ v := (List.drop_subset n v) (hct ▸ List.mem_cons_self c0 t0)
    simp only [Function.comp_apply]
    rw [List.drop_append_of_le_length (Nat.le_of_lt hlt), hct]
    rw [mrun_cat_nil (by simp [mrun, ciStarts, hv2 c0 hc0])]
    rfl]
  simp

lemma firstMatch_evtDq_none {c : Char} {T : List Char} (h : spaceGo c = false) :
    firstMatch eventHandlerDqRE (c :: T) = none := by
  rw [firstMatch]
  rw [show eventHandlerDqRE =
    RE.cat (.plusG spaceGo)
      (.cat (.lit "on".data)
        (.cat (.plusG azCI)
          (.cat (.starG spaceGo)
            (.cat (.lit "=".data)
              (.cat (.starG spaceGo)
                (.cat (.lit "\"".data)
                  (.cat (.starG notDq)
                    (.cat (.lit "\"".data) .eps)))))))) from rfl]
  rw [mrun_cat_nil (by simp [mrun, h])]
  rfl

set_option maxHeartbeats 1000000 in
lemma firstMatch_evtDq (v rest : List Char)
    (hv : ∀ c ∈ v, notDq c = true) (hv2 : ∀ c ∈ v, ciEq '"' c = false) :
    firstMatch eventHandlerDqRE
      (' ' :: 'o' :: 'n' :: 'c' :: 'l' :: 'i' :: 'c' :: 'k' :: '=' :: '"' ::
        (v ++ ('"' :: rest))) = some (v.length + 11, []) := by
  rw [firstMatch]
  rw [show eventHandlerDqRE =
    RE.cat (.plusG spaceGo)
      (.cat (.lit "on".data)
        (.cat (.plusG azCI)
          (.cat (.starG spaceGo)
            (.cat (.lit "=".data)
              (.cat (.starG spaceGo)
                (.cat (.lit "\"".data)
                  (.cat (.starG notDq)
                    (.cat (.lit "\"".data) .eps)))))))) from rfl]
  rw [mrun_cat_single (show mrun (RE.plusG spaceGo)
      (' ' :: 'o' :: 'n' :: 'c' :: 'l' :: 'i' :: 'c' :: 'k' :: '=' :: '"' ::
        (v ++ ('"' :: rest))) = [(1, [])] from by
    simp [mrun, greedyOpts, spaceGo])]
  rw [List.drop_succ_cons, List.drop_zero]
  rw [mrun_cat_single (show mrun (RE.lit "on".data)
      ('o' :: 'n' :: 'c' :: 'l' :: 'i' :: 'c' :: 'k' :: '=' :: '"' ::
        (v ++ ('"' :: rest))) = [(2, [])] from
    mrun_lit_self_append "on".data _)]
  rw [List.drop_succ_cons, List.drop_succ_cons, List.drop_zero]
  have hR : mrun
      (RE.cat (.starG spaceGo)
        (.cat (.lit "=".data)
          (.cat (.starG spaceGo)
            (.cat (.lit "\"".data)
              (.cat (.starG notDq)
                (.cat (.lit "\"".data) .eps))))))
      ('=' :: '"' :: (v ++ ('"' :: rest))) = [(v.length + 3, [])] := by
    rw [mrun_cat_single (show mrun (RE.starG spaceGo)
        ('=' :: '"' :: (v ++ ('"' :: rest))) = [(0, [])] from by
      simp [mrun, greedyOpts, spaceGo])]
    rw [List.drop_zero]
    rw [mrun_cat_single (show mrun (RE.lit "=".data)
        ('=' :: '"' :: (v ++ ('"' :: rest))) = [(1, [])] from
      mrun_lit_self_append "=".data _)]
    rw [List.drop_succ_cons, List.drop_zero]
    rw [mrun_cat_single (show mrun (RE.starG spaceGo)
        ('"' :: (v ++ ('"' :: rest))) = [(0, [])] from by
      simp [mrun, greedyOpts, spaceGo])]
    rw [List.drop_zero]
    rw [mrun_cat_single (show mrun (RE.lit "\"".data)
        ('"' :: (v ++ ('"' :: rest))) = [(1, [])] from
      mrun_lit_self_append "\"".data _)]
    rw [List.drop_succ_cons, List.drop_zero]
    rw [mrun_starG_notDq_close v rest hv hv2]
    simp only [List.map_cons, List.map_nil]
    congr 2
    omega
  have hAz : (mrun
      (RE.cat (.plusG azCI)
        (.cat (.starG spaceGo)
          (.cat (.lit "=".data)
            (.cat (.starG spaceGo)
              (.cat (.lit "\"".data)
                (.cat (.starG notDq)
                  (.cat (.lit "\"".data) .eps)))))))
      ('c' :: 'l' :: 'i' :: 'c' :: 'k' :: '=' :: '"' ::
        (v ++ ('"' :: rest)))).head? = some (v.length + 8, []) := by
    rw [show mrun
        (RE.cat (.plusG azCI)
          (.cat (.starG spaceGo)
            (.cat (.lit "=".data)
              (.cat (.starG spaceGo)
                (.cat (.lit "\"".data)
                  (.cat (.starG notDq)
                    (.cat (.lit "\"".data) .eps)))))))
        ('c' :: 'l' :: 'i' :: 'c' :: 'k' :: '=' :: '"' :: (v ++ ('"' :: rest))) =
      (mrun (RE.plusG azCI)
        ('c' :: 'l' :: 'i' :: 'c' :: 'k' :: '=' :: '"' :: (v ++ ('"' :: rest)))).flatMap
        (fun x => (mrun
          (RE.cat (.starG spaceGo)
            (.cat (.lit "=".data)
              (.cat (.starG spaceGo)
                (.cat (.lit "\"".data)
                  (.cat (.starG notDq)
                    (.cat (.lit "\"".data) .eps))))))
          (('c' :: 'l' :: 'i' :: 'c' :: 'k' :: '=' :: '"' ::
            (v ++ ('"' :: rest))).drop x.1)).map fun y => (x.1 + y.1, x.2 ++ y.2)) from rfl]
    rw [show mrun (RE.plusG azCI)
        ('c' :: 'l' :: 'i' :: 'c' :: 'k' :: '=' :: '"' :: (v ++ ('"' :: rest))) =
      [(5, []), (4, []), (3, []), (2, []), (1, [])] from by
        simp [mrun, greedyOpts, azCI, lowerAscii]]
    refine head_flatMap_cons _ _ _ _ [] ?_
    rw [show (('c' :: 'l' :: 'i' :: 'c' :: 'k' :: '=' :: '"' ::
      (v ++ ('"' :: rest))).drop ((5, ([] : Caps)).1)) =
      ('=' :: '"' :: (v ++ ('"' :: rest))) from rfl]
    rw [hR]
    simp only [List.map_cons, List.map_nil]
    rw [show 5 + (v.length + 3) = v.length + 8 from by omega]
    rfl
  rw [List.head?_map, List.head?_map, hAz]
  simp only [Option.map_some']
  rw [show 1 + (2 + (v.length + 8)) = v.length + 11 from by omega]
  rfl

/-- Options selecting only event-handler removal. -/
def removeEventHandlersOnly : SanitizeOptions :=
  ⟨false, true, false, false⟩

/-- The Scenario C shaped inputs of the amended claim C7. -/
def svgOnclickWrap (v : List Char) : List Char :=
  "<svg onclick=\"".data ++ v ++ "\"><rect/></svg>".data

lemma replaceAll_evtDq (v : List Char)
    (hv : ∀ c ∈ v, notDq c = true) (hv2 : ∀ c ∈ v, ciEq '"' c = false) :
    replaceAll eventHandlerDqRE [] (svgOnclickWrap v) = "<svg><rect/></svg>".data := by
  rw [show svgOnclickWrap v = '<' :: 's' :: 'v' :: 'g' ::
    (' ' :: 'o' :: 'n' :: 'c' :: 'l' :: 'i' :: 'c' :: 'k' :: '=' :: '"' ::
      (v ++ ('"' :: "><rect/></svg>".data))) from rfl]
  rw [replaceAll_cons_none (firstMatch_evtDq_none (by decide))]
  rw [replaceAll_cons_none (firstMatch_evtDq_none (by decide))]
  rw [replaceAll_cons_none (firstMatch_evtDq_none (by decide))]
  rw [replaceAll_cons_none (firstMatch_evtDq_none (by decide))]
  rw [replaceAll_cons_match (show firstMatch eventHandlerDqRE
      (' ' :: 'o' :: 'n' :: 'c' :: 'l' :: 'i' :: 'c' :: 'k' :: '=' :: '"' ::
        (v ++ ('"' :: "><rect/></svg>".data))) =
      some (v.length + 10 + 1, []) from
    firstMatch_evtDq v "><rect/></svg>".data hv hv2)]
  have hdrop : ((' ' :: 'o' :: 'n' :: 'c' :: 'l' :: 'i' :: 'c' :: 'k' :: '=' :: '"' ::
      (v ++ ('"' :: "><rect/></svg>".data))).drop (v.length + 10 + 1)) =
      "><rect/></svg>".data := by
    show ((" onclick=\"".data ++
      (v ++ ("\"".data ++ "><rect/></svg>".data))).drop (v.length + 10 + 1)) =
      "><rect/></svg>".data
    rw [← List.append_assoc, ← List.append_assoc]
    apply List.drop_left'
    simp only [List.length_append, show " onclick=\"".data.length = 10 from rfl,
      show "\"".data.length = 1 from rfl]
    omega
  rw [hdrop]
  rw [show replaceAll eventHandlerDqRE [] "><rect/></svg>".data =
    "><rect/></svg>".data from by decide]
  decide

/-- Counterexample to C7 as stated: removing the event handler ` onq="z"` from
this content splices the remaining text into a new event handler ` onx="y"`,
and the second sanitization pass removes it, reporting Sanitized = true. -/
theorem sanitize_second_pass_cex :
    ((sanitize "in.svg" "out.svg"
        (.ok (sanitizeContent " on onq=\"z\"x=\"y\"" removeEventHandlersOnly).1)
        removeEventHandlersOnly).toOption.map SanitizeResult.sanitized) = some true := by
  decide

/-- C7 (amended): sanitization is idempotent whenever removal does not splice
surrounding text into a new match; concretely, for every handler value of
letters, digits, parentheses and whitespace, sanitizing
`<svg onclick="VALUE"><rect/></svg>` with RemoveEventHandlers and sanitizing
the output again with the same options records zero threats on the second
pass.  (As stated over all contents and options the property fails, see the
counterexample.) -/
theorem sanitize_idempotent_amended (v : List Char)
    (hv : ∀ c ∈ v, scriptBodyChar c = true) :
    (sanitizeContent
        (sanitizeContent (String.mk (svgOnclickWrap v)) removeEventHandlersOnly).1
        removeEventHandlersOnly).2 = [] := by
  have h1 : (sanitizeContent (String.mk (svgOnclickWrap v))
      removeEventHandlersOnly).1 = "<svg><rect/></svg>" := by
    rw [sanitizeContent]
    simp only
    rw [sanitizeFold_fst]
    rw [show sanitizePatternsFor removeEventHandlersOnly =
      ⟨eventHandlerDqRE, [], "event handler attribute", .eventHandler⟩ ::
        eventHandlerRemovalPatterns.tail from rfl]
    rw [List.foldl_cons]
    simp only
    rw [replaceAll_evtDq v (fun c hc => scriptBodyChar_notDq (hv c hc))
      (fun c hc => scriptBodyChar_not_dq (hv c hc))]
    decide
  rw [h1]
  decide

/-- Witness: the amended idempotence theorem at a concrete handler value. -/
theorem sanitize_idempotent_amended_witness :
    (sanitizeContent
        (sanitizeContent (String.mk (svgOnclickWrap "x()".data))
          removeEventHandlersOnly).1
        removeEventHandlersOnly).2 = [] :=
  sanitize_idempotent_amended "x()".data (by decide)

/-! Code-bug witnesses for claims C5 and C6. -/

/-- The failing input of C5: a single-quoted `javascript:` href (built from
characters because of the single quotes). -/
def c5Input : String :=
  String.mk ['<', 'a', ' ', 'h', 'r', 'e', 'f', '=', sqc, 'j', 'a', 'v', 'a',
    's', 'c', 'r', 'i', 'p', 't', ':', 'a', 'l', 'e', 'r', 't', '(', '1', ')',
    sqc, '>', 'x', '<', '/', 'a', '>']

/-- C5 (code bug): sanitizing a single-quoted `javascript:` href replaces the
value and its closing quote with the hard-coded `#"`, leaving the
mismatched-quote attribute `href='#"` rather than preserving the original
quoting; the double-quoted Scenario E case behaves as the claim states. -/
theorem sanitize_single_quote_href_mismatch :
    sanitizeContent c5Input ⟨true, false, false, false⟩ =
      (String.mk ['<', 'a', ' ', 'h', 'r', 'e', 'f', '=', sqc, '#', '"', '>',
        'x', '<', '/', 'a', '>'],
       [⟨.script, "javascript: URI in href",
         String.mk ['h', 'r', 'e', 'f', '=', sqc, 'j', 'a', 'v', 'a', 's', 'c',
           'r', 'i', 'p', 't', ':', 'a', 'l', 'e', 'r', 't', '(', '1', ')', sqc]⟩]) ∧
    (sanitizeContent
        "<a href=\"https://phish.example/\">p</a><image href=\"https://cdn.example/x.png\"/>"
        ⟨false, false, true, false⟩).1 =
      "<a href=\"#\">p</a><image href=\"#\"/>" := by
  refine ⟨by decide, by decide⟩

/-- C6 (code bug): a script element whose body spans a newline goes
undetected — the Strict scan reports zero threats and a secure result,
because the scanner's script-element pattern lacks the dotall flag that its
sanitizer counterpart has, so its `.*?` cannot cross the newline.  The same
input is fully removed by RemoveAll sanitization, and the same element without
the newline is detected as exactly one Script threat. -/
theorem scan_misses_multiline_script :
    (scanContentWithLevel "<svg><script>alert(1)\nalert(2)</script><rect/></svg>"
        none .strict).threats = [] ∧
    (scanContentWithLevel "<svg><script>alert(1)\nalert(2)</script><rect/></svg>"
        none .strict).isSecure = true ∧
    (sanitizeContent "<svg><script>alert(1)\nalert(2)</script><rect/></svg>"
        defaultSanitizeOptions).1 = "<svg><rect/></svg>" ∧
    (scanContentWithLevel "<svg><script>alert(1)</script><rect/></svg>"
        none .strict).threats.map Threat.type = [.script] := by
  refine ⟨by decide, by decide, by decide, by decide⟩

end Brandkit
